import Mathlib

/-!
Verification of the k-nearest-neighbour classifier of this repository
(`src/knn.rs`, `src/kernel.rs`, `src/distance_metric.rs`, `src/lowess.rs`)
against its natural-language specification.

Shallow embedding conventions:

* `f64` values are idealized as exact rationals (`ℚ`) throughout the
  classification pipeline, and as reals (`ℝ`) for the kernel functions,
  whose gaussian variant involves `π`, `exp` and a square root and is not
  rational-valued.  A dedicated small scalar type `FQ` that tracks NaN and
  the infinities is used where IEEE-754 division by zero is the very point
  at issue (the `Unfixed` window normalization).
* `f64::sqrt`, which leaves `ℚ`, is threaded through the pipeline as an
  explicit parameter `sqrtFn : ℚ → ℚ`; concrete evaluations instantiate it
  with `ratSqrtExact`, which agrees with IEEE-754 square root on the
  perfect squares used in those evaluations.
* The kiddo `KdTree` is modelled extensionally as the list of inserted
  `(point, item)` pairs: `add` appends, `within` filters by the metric
  threshold and sorts ascending by distance, `nearest_n` sorts ascending
  and takes `k`.  (kiddo returns both query results sorted ascending by
  distance; ties are broken in an unspecified way, here stably.)
* Rust panics (`unwrap` on `None`, out-of-range indexing) are modelled by
  the explicit error value `PredictError.panicked`, distinct from the
  "no neighbors found for prediction" error value.
* The `HashMap<Diagnosis, f64>` used for vote accumulation iterates in an
  unspecified (seeded) order; the model accumulates in first-insertion
  order.  Every result whose maximal score is unique is independent of
  that choice, and the specification itself singles the tie case out as
  non-reproducible.
-/

/-- DIMENSIONS from `src/knn.rs`: `pub const DIMENSIONS: usize = 30;`. -/
def DIMENSIONS : Nat := 30

/-- Feature vectors: the Rust array type `[f64; DIMENSIONS]`, idealized over `ℚ`. -/
abbrev Features := Mathlib.Vector ℚ DIMENSIONS

/-- Modelled from the spec: the label type `Diagnosis` comes from
`src/parse/breast_cancer.rs`, which is not among the provided sources; the
spec fixes only that labels form a small closed comparable set, binary in
the reference domain ("reference behavior is binary"). -/
inductive Diagnosis
  | benign
  | malignant
deriving DecidableEq

/-- Data from `src/knn.rs`: a sample is a feature vector plus a label. -/
structure Data where
  features : Features
  label : Diagnosis
deriving DecidableEq

/-- WindowType from `src/knn.rs` (`Fixed` = radius window, `Unfixed` = k nearest). -/
inductive WindowType
  | Fixed
  | Unfixed
deriving DecidableEq

/-- Distance metric interface (kiddo's `DistanceMetric` trait), specialised to
`ℚ`-valued coordinates: a full-vector distance and a single-axis form. -/
structure DistanceMetricQ where
  dist : Features → Features → ℚ
  dist1 : ℚ → ℚ → ℚ

/-- Chebyshev from `src/distance_metric.rs`: zip the two coordinate arrays,
map to absolute differences, fold with `max` from `zero`; `dist1` is the
absolute difference. -/
def Chebyshev : DistanceMetricQ where
  dist first second :=
    ((first.toList.zip second.toList).map (fun p => |p.1 - p.2|)).foldl max 0
  dist1 first second := |first - second|

/-- uniform from `src/kernel.rs` over the real idealization of `f64`. -/
noncomputable def uniform (distance : ℝ) : ℝ :=
  if distance < 1 then 0.5 else 0

/-- triangular from `src/kernel.rs` over the real idealization of `f64`. -/
noncomputable def triangular (distance : ℝ) : ℝ :=
  if |distance| < 1 then 1 - |distance| else 0

/-- epanechnikov from `src/kernel.rs` over the real idealization of `f64`. -/
noncomputable def epanechnikov (distance : ℝ) : ℝ :=
  if |distance| < 1 then (1 - distance ^ 2) * 0.75 else 0

/-- gaussian from `src/kernel.rs` over the real idealization of `f64`:
`(1.0 / (2.0 * PI).sqrt()) * (-distance.powi(2) / 2.0).exp()`. -/
noncomputable def gaussian (distance : ℝ) : ℝ :=
  1 / Real.sqrt (2 * Real.pi) * Real.exp (-distance ^ 2 / 2)

/-- Spec formula for the uniform kernel (§4.2 of the spec): `0.5 if u<1 else 0`. -/
noncomputable def uniformSpec (u : ℝ) : ℝ :=
  if u < 1 then 0.5 else 0

/-- Spec formula for the triangular kernel (§4.2): `1−|u| if |u|<1 else 0`. -/
noncomputable def triangularSpec (u : ℝ) : ℝ :=
  if |u| < 1 then 1 - |u| else 0

/-- Spec formula for the epanechnikov kernel (§4.2): `0.75·(1−u²) if |u|<1 else 0`. -/
noncomputable def epanechnikovSpec (u : ℝ) : ℝ :=
  if |u| < 1 then 0.75 * (1 - u ^ 2) else 0

/-- Spec formula for the gaussian kernel (§4.2): `(1/√(2π))·e^(−u²/2)`. -/
noncomputable def gaussianSpec (u : ℝ) : ℝ :=
  1 / Real.sqrt (2 * Real.pi) * Real.exp (-(u ^ 2) / 2)

/-- uniform kernel over the rational idealization, used when a kernel value is
fed through the (rational) classification pipeline. -/
def uniformQ (distance : ℚ) : ℚ :=
  if distance < 1 then 0.5 else 0

/-- triangular kernel over the rational idealization. -/
def triangularQ (distance : ℚ) : ℚ :=
  if |distance| < 1 then 1 - |distance| else 0

/-- epanechnikov kernel over the rational idealization.  (The gaussian kernel
is not rational-valued; pipeline theorems quantify over the kernel, matching
the bare `fn(f64) -> f64` field of the source.) -/
def epanechnikovQ (distance : ℚ) : ℚ :=
  if |distance| < 1 then (1 - distance ^ 2) * 0.75 else 0

/-- Floor square root on `Nat` by structural recursion (kernel-reducible). -/
def natSqrtBelow : Nat → Nat
  | 0 => 0
  | n + 1 =>
    let r := natSqrtBelow n
    if (r + 1) * (r + 1) ≤ n + 1 then r + 1 else r

/-- Concrete instantiation of the `sqrtFn` parameter (the idealization of
`f64::sqrt`): exact on rationals whose numerator and denominator are perfect
squares — every concrete input used below — where IEEE-754 square root is
also exact. -/
def ratSqrtExact (q : ℚ) : ℚ :=
  (natSqrtBelow q.num.toNat : ℚ) / (natSqrtBelow q.den : ℚ)

instance : DecidableRel (fun p q : ℚ × Nat => p.1 ≤ q.1) :=
  fun p q => inferInstanceAs (Decidable (p.1 ≤ q.1))

/-- Extensional model of kiddo's `KdTree::with_capacity`: the capacity is an
allocation hint with no observable content, the new tree holds no entries. -/
def KdTree.withCapacity (_capacity : Nat) : List (Features × Nat) := []

/-- Extensional model of kiddo's `KdTree::add`: one more `(point, item)` entry. -/
def KdTree.add (tree : List (Features × Nat)) (point : Features) (item : Nat) :
    List (Features × Nat) :=
  tree ++ [(point, item)]

/-- Extensional model of kiddo's `KdTree::within::<M>`: every stored entry whose
metric-native distance to the query is at most `dist`, as `(distance, item)`
pairs sorted ascending by distance. -/
def KdTree.within (M : DistanceMetricQ) (tree : List (Features × Nat))
    (query : Features) (dist : ℚ) : List (ℚ × Nat) :=
  List.insertionSort (fun p q => p.1 ≤ q.1)
    ((tree.map (fun e => (M.dist e.1 query, e.2))).filter (fun p => p.1 ≤ dist))

/-- Extensional model of kiddo's `KdTree::nearest_n::<M>`: the `k` stored
entries closest to the query, as `(distance, item)` pairs sorted ascending. -/
def KdTree.nearestN (M : DistanceMetricQ) (tree : List (Features × Nat))
    (query : Features) (k : Nat) : List (ℚ × Nat) :=
  (List.insertionSort (fun p q => p.1 ≤ q.1)
    (tree.map (fun e => (M.dist e.1 query, e.2)))).take k

/-- Outcomes of a `predict` call that do not produce a label: the
"no neighbors found for prediction" error value that `predict` returns, and
a Rust panic (`unwrap` on `None` / out-of-range `Vec` indexing), which
aborts rather than returns. -/
inductive PredictError
  | noNeighbors
  | panicked
deriving DecidableEq

/-- Knn from `src/knn.rs`: hyperparameters, kd-tree, dataset and per-sample
weights.  The distance metric, a phantom type parameter in the source, is
passed to the query functions below. -/
structure Knn where
  k : Nat
  radius : ℚ
  kernel : ℚ → ℚ
  window : WindowType
  kd_tree : List (Features × Nat)
  data : List Data
  weights : List ℚ

/-- Knn::new from `src/knn.rs`: stores the hyperparameters unexamined and
starts with an empty tree, dataset and weight vector.  There is no
validation and no error channel in the source. -/
def Knn.new (k : Nat) (radius : ℚ) (window : WindowType) (kernel : ℚ → ℚ)
    (capacity : Nat) : Knn where
  k := k
  radius := radius
  kernel := kernel
  window := window
  kd_tree := KdTree.withCapacity capacity
  data := []
  weights := []

/-- Knn::fit from `src/knn.rs`: replaces `data`, replaces `weights` (defaulting
to `vec![1.0; len]` when absent, and taking the supplied vector unexamined
otherwise), then `add`s every sample keyed by its position onto the existing
`kd_tree`.  The source neither clears the tree nor checks any length, and it
returns no error. -/
def Knn.fit (knn : Knn) (data : List Data) (weights : Option (List ℚ)) : Knn :=
  let newWeights := weights.getD (List.replicate data.length 1)
  { knn with
    data := data
    weights := newWeights
    kd_tree := data.enum.foldl (fun tree p => KdTree.add tree p.2.features p.1) knn.kd_tree }

/-- Neighbor retrieval match of `Knn::predict_with_neighbors` (src/knn.rs):
`Fixed` queries the tree within `radius.powi(2)`, `Unfixed` queries the `k`
nearest. -/
def Knn.retrieve (M : DistanceMetricQ) (knn : Knn) (x : Features) : List (ℚ × Nat) :=
  match knn.window with
  | .Fixed => KdTree.within M knn.kd_tree x (knn.radius ^ 2)
  | .Unfixed => KdTree.nearestN M knn.kd_tree x knn.k

/-- Normalization match of `Knn::predict_with_neighbors` (src/knn.rs lines
106–122): `Fixed` divides every distance by `radius`; `Unfixed` divides every
distance by `adjusted_distances.last().unwrap()`, whose `unwrap` panics on an
empty list. -/
def Knn.adjustDistances (knn : Knn) (distances : List ℚ) :
    Except PredictError (List ℚ) :=
  match knn.window with
  | .Fixed => .ok (distances.map (fun dist => dist / knn.radius))
  | .Unfixed =>
    match distances.getLast? with
    | none => .error .panicked
    | some adjusted_distance => .ok (distances.map (fun distance => distance / adjusted_distance))

/-- Target/weight gathering loop of `Knn::predict_with_neighbors`:
`targets.push(self.data[index].label); weights.push(self.weights[index]);`,
where either indexing panics when `index` is out of range. -/
def lookupNeighbors (data : List Data) (weights : List ℚ) :
    List Nat → Except PredictError (List Diagnosis × List ℚ)
  | [] => .ok ([], [])
  | index :: rest =>
    match data.get? index, weights.get? index, lookupNeighbors data weights rest with
    | some d, some w, .ok (targets, ws) => .ok (d.label :: targets, w :: ws)
    | _, _, _ => .error .panicked

/-- Knn::predict_with_neighbors from `src/knn.rs`: retrieve neighbors, take
the square root of each returned distance, normalize, gather targets and
stored weights, and apply the kernel to each normalized distance. -/
def Knn.predictWithNeighbors (M : DistanceMetricQ) (sqrtFn : ℚ → ℚ) (knn : Knn)
    (x : Features) : Except PredictError (List ℚ × List Diagnosis × List ℚ) :=
  let raw := knn.retrieve M x
  let distances := raw.map (fun neighbour => sqrtFn neighbour.1)
  let indices := raw.map (fun neighbour => neighbour.2)
  match knn.adjustDistances distances with
  | .error e => .error e
  | .ok adjusted_distances =>
    match lookupNeighbors knn.data knn.weights indices with
    | .error e => .error e
    | .ok (targets, weights) =>
      .ok (adjusted_distances.map knn.kernel, targets, weights)

/-- Entry update of the `class_scores` HashMap:
`*class_scores.entry(*target).or_insert(0.0) += weighted_score`, modelled on
an association list kept in first-insertion order. -/
def upsertScore : List (Diagnosis × ℚ) → Diagnosis → ℚ → List (Diagnosis × ℚ)
  | [], target, v => [(target, v)]
  | (c, s) :: rest, target, v =>
    if c = target then (c, s + v) :: rest else (c, s) :: upsertScore rest target v

/-- Rust `Iterator::max_by` keeps the running maximum and replaces it whenever
the next element is not below it, so the last maximal element wins; `none` on
an empty iterator.  (`partial_cmp(..).unwrap()` never panics on the rational
idealization, which has no NaN.) -/
def maxBySecond : List (Diagnosis × ℚ) → Option (Diagnosis × ℚ)
  | [] => none
  | p :: rest => some (rest.foldl (fun acc q => if acc.2 > q.2 then acc else q) p)

/-- Knn::predict_class from `src/knn.rs`: accumulate `kernel_distances[i] *
weights[i]` per label, then take the label of maximal score.  The final
`unwrap` of the source is the `Option`. -/
def predictClass (kernel_distances : List ℚ) (targets : List Diagnosis)
    (weights : List ℚ) : Option Diagnosis :=
  let class_scores := targets.enum.foldl
    (fun scores p =>
      upsertScore scores p.2 (kernel_distances.getD p.1 0 * weights.getD p.1 0))
    []
  (maxBySecond class_scores).map (fun p => p.1)

/-- Knn::predict from `src/knn.rs`: run `predict_with_neighbors` (whose panics
abort), fail with the "no neighbors found for prediction" error when targets
or weights are empty, otherwise vote. -/
def Knn.predict (M : DistanceMetricQ) (sqrtFn : ℚ → ℚ) (knn : Knn) (x : Features) :
    Except PredictError Diagnosis :=
  match knn.predictWithNeighbors M sqrtFn x with
  | .error e => .error e
  | .ok (kernel_distances, targets, weights) =>
    if targets.isEmpty || weights.isEmpty then
      .error .noNeighbors
    else
      match predictClass kernel_distances targets weights with
      | some predicted_class => .ok predicted_class
      | none => .error .panicked

/-- Scalar idealization of `f64` that tracks NaN and the infinities, used to
settle the divide-by-zero behaviour of the `Unfixed` normalization, which the
totalized rational division cannot express.  Signed zeros are collapsed. -/
inductive FQ
  | nan
  | inf
  | ninf
  | fin (q : ℚ)
deriving DecidableEq

/-- IEEE-754 division on `FQ`: `0/0` is NaN, `a/0` for `a ≠ 0` is a signed
infinity, NaN is absorbing. -/
def FQ.div : FQ → FQ → FQ
  | .nan, _ => .nan
  | _, .nan => .nan
  | .inf, .inf => .nan
  | .inf, .ninf => .nan
  | .ninf, .inf => .nan
  | .ninf, .ninf => .nan
  | .inf, .fin b => if b < 0 then .ninf else .inf
  | .ninf, .fin b => if b < 0 then .inf else .ninf
  | .fin _, .inf => .fin 0
  | .fin _, .ninf => .fin 0
  | .fin a, .fin b =>
    if b = 0 then (if a = 0 then .nan else if 0 < a then .inf else .ninf)
    else .fin (a / b)

/-- IEEE-754 `<` on `FQ`: every comparison with NaN is false. -/
def FQ.lt : FQ → FQ → Bool
  | .nan, _ => false
  | _, .nan => false
  | .ninf, .ninf => false
  | .ninf, _ => true
  | _, .ninf => false
  | .inf, _ => false
  | .fin _, .inf => true
  | .fin a, .fin b => a < b

/-- uniform from `src/kernel.rs` over the NaN-aware idealization: a NaN
distance compares false against `1.0`, so the kernel returns `0.0`. -/
def uniformFQ (distance : FQ) : FQ :=
  if FQ.lt distance (.fin 1) then .fin 0.5 else .fin 0

/-- Unfixed normalization of `Knn::predict_with_neighbors` (src/knn.rs lines
116–121) over the NaN-aware idealization: divide every distance by
`adjusted_distances.last().unwrap()`, panicking on an empty list and
performing the division unguarded otherwise. -/
def adjustUnfixedFQ (distances : List FQ) : Except PredictError (List FQ) :=
  match distances.getLast? with
  | none => .error .panicked
  | some adjusted_distance => .ok (distances.map (fun distance => FQ.div distance adjusted_distance))

/-- Held-out prediction of `lowess` (src/lowess.rs) for the enumerated sample
`p`: fit a fresh classifier with the same hyperparameters on the dataset
with sample `p.1` removed (`Vec::remove`) and no weight vector, then predict
the held-out sample's features. -/
def lowessHeldOut (M : DistanceMetricQ) (sqrtFn : ℚ → ℚ) (neighbour_amount : Nat)
    (radius : ℚ) (window_type : WindowType) (kernel : ℚ → ℚ)
    (train_data : List Data) (p : Nat × Data) : Except PredictError Diagnosis :=
  let modified_train_data := train_data.eraseIdx p.1
  let knn_instance :=
    (Knn.new neighbour_amount radius window_type kernel
      modified_train_data.length).fit modified_train_data none
  knn_instance.predict M sqrtFn p.2.features

/-- Loop body of `lowess` (src/lowess.rs lines 28-38): the Rust `match` on
`predict`'s `Result` sees only `Ok` — push `kernel(0.0)` on agreement with
the held-out sample's label, `kernel(1.0)` on disagreement — and `Err`, the
recoverable no-neighbors error — push `0.0`.  A panic inside `predict` is
not a `Result` value: it escapes the `match` and aborts the whole loop. -/
def lowessStep (M : DistanceMetricQ) (sqrtFn : ℚ → ℚ) (neighbour_amount : Nat)
    (radius : ℚ) (window_type : WindowType) (kernel : ℚ → ℚ)
    (train_data : List Data) (p : Nat × Data) : Except PredictError ℚ :=
  match lowessHeldOut M sqrtFn neighbour_amount radius window_type kernel train_data p with
  | .ok prediction => .ok (if prediction = p.2.label then kernel 0 else kernel 1)
  | .error .noNeighbors => .ok 0
  | .error .panicked => .error .panicked

/-- Weight a non-panicking `lowessStep` pushes: `kernel 0` on an agreeing
success, `kernel 1` on a disagreeing success, `0` on the recoverable
no-neighbors error. -/
def lowessStepWeight (M : DistanceMetricQ) (sqrtFn : ℚ → ℚ) (neighbour_amount : Nat)
    (radius : ℚ) (window_type : WindowType) (kernel : ℚ → ℚ)
    (train_data : List Data) (p : Nat × Data) : ℚ :=
  match lowessHeldOut M sqrtFn neighbour_amount radius window_type kernel train_data p with
  | .ok prediction => if prediction = p.2.label then kernel 0 else kernel 1
  | .error _ => 0

/-- One iteration of the `lowess` for-loop over the enumerated samples: an
already-aborted run stays aborted; otherwise the step's weight is pushed,
or the step's panic aborts the run. -/
def lowessFold (step : Nat × Data → Except PredictError ℚ)
    (acc : Except PredictError (List ℚ)) (p : Nat × Data) :
    Except PredictError (List ℚ) :=
  match acc with
  | .error e => .error e
  | .ok weights =>
    match step p with
    | .ok w => .ok (weights ++ [w])
    | .error e => .error e

/-- lowess from `src/lowess.rs`: run the held-out loop over the enumerated
samples in order; the result is the pushed weight list unless some
iteration panicked, which aborts the whole batch with no weight list. -/
def lowess (M : DistanceMetricQ) (sqrtFn : ℚ → ℚ) (neighbour_amount : Nat)
    (radius : ℚ) (window_type : WindowType) (kernel : ℚ → ℚ)
    (train_data : List Data) : Except PredictError (List ℚ) :=
  train_data.enum.foldl
    (lowessFold (lowessStep M sqrtFn neighbour_amount radius window_type kernel train_data))
    (.ok [])

/-- Concrete all-zeros feature vector, used in the concrete scenarios below. -/
def vZero : Features := Mathlib.Vector.replicate DIMENSIONS 0

/-- Concrete all-nines feature vector, at Chebyshev distance 9 from `vZero`. -/
def vNine : Features := Mathlib.Vector.replicate DIMENSIONS 9

/-! ## Helper lemmas -/

/-- Lower bound: a `foldl max` never drops below its seed. -/
theorem le_foldl_max_init (l : List ℚ) (a : ℚ) : a ≤ l.foldl max a := by
  induction l generalizing a with
  | nil => exact le_refl a
  | cons y ys ih => exact le_trans (le_max_left a y) (ih (max a y))

/-- Lower bound: a `foldl max` dominates every member of the list. -/
theorem le_foldl_max_of_mem {l : List ℚ} {x : ℚ} (h : x ∈ l) (a : ℚ) :
    x ≤ l.foldl max a := by
  induction l generalizing a with
  | nil => cases h
  | cons y ys ih =>
    rw [List.foldl_cons]
    rcases List.mem_cons.mp h with hx | hx
    · rw [hx]
      exact le_trans (le_max_right a y) (le_foldl_max_init ys (max a y))
    · exact ih hx (max a y)

/-- Upper bound: a `foldl max` stays below any common bound of the seed and
the members. -/
theorem foldl_max_le {l : List ℚ} {a b : ℚ} (ha : a ≤ b) (h : ∀ x ∈ l, x ≤ b) :
    l.foldl max a ≤ b := by
  induction l generalizing a with
  | nil => exact ha
  | cons y ys ih =>
    exact ih (max_le ha (h y (List.mem_cons_self y ys)))
      (fun x hx => h x (List.mem_cons_of_mem y hx))

/-- A `foldl max` is attained: it is the seed or some member of the list. -/
theorem foldl_max_eq_init_or_mem (l : List ℚ) (a : ℚ) :
    l.foldl max a = a ∨ l.foldl max a ∈ l := by
  induction l generalizing a with
  | nil => exact Or.inl rfl
  | cons y ys ih =>
    rcases ih (max a y) with h | h
    · rcases max_choice a y with hm | hm
      · exact Or.inl (by rw [List.foldl_cons, h, hm])
      · exact Or.inr (by rw [List.foldl_cons, h, hm]; exact List.mem_cons_self y ys)
    · exact Or.inr (List.mem_cons_of_mem y h)

/-- Folding `KdTree.add` over enumerated samples appends one entry per sample. -/
theorem foldl_kdTree_add_eq_append (l : List (Nat × Data)) (t : List (Features × Nat)) :
    l.foldl (fun tree p => KdTree.add tree p.2.features p.1) t
      = t ++ l.map (fun p => (p.2.features, p.1)) := by
  induction l generalizing t with
  | nil => simp
  | cons y ys ih =>
    rw [List.foldl_cons, ih]
    simp [KdTree.add]

/-- Indexing a vector agrees with indexing its underlying list. -/
theorem vector_get_eq_toList_get (v : Features) (i : Fin DIMENSIONS)
    (h : i.val < v.toList.length) : v.get i = v.toList.get ⟨i.val, h⟩ := by
  rw [Mathlib.Vector.get_eq_get]
  rfl

/-- Chebyshev distance between the two concrete scenario vectors. -/
theorem chebyshev_vNine_vZero : Chebyshev.dist vNine vZero = 9 := by
  show ((vNine.toList.zip vZero.toList).map (fun p => |p.1 - p.2|)).foldl max 0 = 9
  norm_num [vNine, vZero, DIMENSIONS, Mathlib.Vector.replicate, List.replicate,
    List.zip, List.zipWith, List.foldl]

/-- Chebyshev distance from the zero vector to itself. -/
theorem chebyshev_vZero_vZero : Chebyshev.dist vZero vZero = 0 := by
  show ((vZero.toList.zip vZero.toList).map (fun p => |p.1 - p.2|)).foldl max 0 = 0
  norm_num [vZero, DIMENSIONS, Mathlib.Vector.replicate, List.replicate,
    List.zip, List.zipWith, List.foldl]

/-- The square-root model is exact at the perfect square 9. -/
theorem ratSqrtExact_nine : ratSqrtExact 9 = 3 := by
  norm_num [ratSqrtExact, natSqrtBelow]

/-! ## Claim C1 -/

/-- C1 counterexample: `Knn::new` accepts zero k together with the negative
radius `-1` under the `Fixed` policy and returns a classifier (there is no
error channel), and `fit` called with a weights vector of length 2 for a
single sample succeeds and mutates: the dataset is replaced and the
mismatched weights vector is stored verbatim, so nothing failed fast and the
state did change. -/
theorem new_and_fit_accept_invalid_configuration_cex :
    (Knn.new 0 (-1 : ℚ) .Fixed uniformQ 0).k = 0 ∧
    (Knn.new 0 (-1 : ℚ) .Fixed uniformQ 0).radius = -1 ∧
    ((Knn.new 1 1 .Fixed uniformQ 1).fit [⟨vZero, .benign⟩] (some [1, 2])).data
      = [⟨vZero, .benign⟩] ∧
    ((Knn.new 1 1 .Fixed uniformQ 1).fit [⟨vZero, .benign⟩] (some [1, 2])).weights
      = [1, 2] ∧
    ((Knn.new 1 1 .Fixed uniformQ 1).fit [⟨vZero, .benign⟩] (some [1, 2])).weights.length
      ≠ ((Knn.new 1 1 .Fixed uniformQ 1).fit [⟨vZero, .benign⟩] (some [1, 2])).data.length :=
  ⟨rfl, rfl, rfl, rfl, by decide⟩

/-- C1 amended: neither `Knn::new` nor `Knn::fit` validates anything or can
fail.  `new` stores any radius and k unexamined; `fit` always replaces the
dataset and stores the supplied weights vector verbatim — even one of
mismatched length — defaulting to one weight of `1.0` per sample only when
no vector is supplied. -/
theorem new_and_fit_never_validate (k : Nat) (radius : ℚ) (window : WindowType)
    (kernel : ℚ → ℚ) (capacity : Nat) (knn : Knn) (data : List Data)
    (weights : Option (List ℚ)) :
    (Knn.new k radius window kernel capacity).k = k ∧
    (Knn.new k radius window kernel capacity).radius = radius ∧
    (knn.fit data weights).data = data ∧
    (knn.fit data weights).weights = weights.getD (List.replicate data.length 1) :=
  ⟨rfl, rfl, rfl, rfl⟩

/-! ## Claim C2 -/

/-- C2 counterexample: fitting a two-sample dataset and then re-fitting a
one-sample dataset on the same instance leaves three entries in the spatial
index — the two entries inserted by the first `fit` are still there (one of
them now a stale duplicate of id 0) — so the index is not rebuilt from
scratch and does not contain exactly one entry per sample of the newly
fitted dataset. -/
theorem fit_does_not_rebuild_index_cex :
    (((Knn.new 1 1 .Fixed uniformQ 2).fit [⟨vZero, .benign⟩, ⟨vNine, .malignant⟩] none).fit
        [⟨vNine, .malignant⟩] none).kd_tree
      = [(vZero, 0), (vNine, 1), (vNine, 0)] ∧
    (((Knn.new 1 1 .Fixed uniformQ 2).fit [⟨vZero, .benign⟩, ⟨vNine, .malignant⟩] none).fit
        [⟨vNine, .malignant⟩] none).data.length = 1 ∧
    (((Knn.new 1 1 .Fixed uniformQ 2).fit [⟨vZero, .benign⟩, ⟨vNine, .malignant⟩] none).fit
        [⟨vNine, .malignant⟩] none).kd_tree.length
      ≠ (((Knn.new 1 1 .Fixed uniformQ 2).fit [⟨vZero, .benign⟩, ⟨vNine, .malignant⟩] none).fit
        [⟨vNine, .malignant⟩] none).data.length :=
  ⟨rfl, rfl, by decide⟩

/-- C2 amended: every successful `fit` wholesale-replaces the dataset and
weights, and appends to the spatial index exactly one entry per sample of
the newly fitted dataset, keyed by that sample's position in the new
dataset — but entries inserted by earlier fits on the same instance remain:
the index is appended to, never rebuilt.  Only a first `fit` (empty index)
yields an index with exactly the new dataset's entries. -/
theorem fit_replaces_data_but_appends_index (knn : Knn) (data : List Data)
    (weights : Option (List ℚ)) :
    (knn.fit data weights).data = data ∧
    (knn.fit data weights).weights = weights.getD (List.replicate data.length 1) ∧
    (knn.fit data weights).kd_tree
      = knn.kd_tree ++ data.enum.map (fun p => (p.2.features, p.1)) ∧
    (knn.fit data weights).kd_tree.length = knn.kd_tree.length + data.length := by
  refine ⟨rfl, rfl, ?_, ?_⟩
  · exact foldl_kdTree_add_eq_append data.enum knn.kd_tree
  · rw [show (knn.fit data weights).kd_tree
        = knn.kd_tree ++ data.enum.map (fun p => (p.2.features, p.1)) from
      foldl_kdTree_add_eq_append data.enum knn.kd_tree]
    simp

/-! ## Claim C3 -/

/-- C3 counterexample: a classifier fitted (on an empty dataset) under the
`Unfixed` (KNearest) policy with valid hyperparameters k=3, radius=1, whose
neighbor retrieval returns the empty result set, does not fail with the
no-neighbors error: `predict` panics on `adjusted_distances.last().unwrap()`
before ever reaching the empty-result check. -/
theorem predict_empty_unfixed_panics_cex :
    ((Knn.new 3 1 .Unfixed uniformQ 0).fit [] none).retrieve Chebyshev vZero = [] ∧
    Knn.predict Chebyshev ratSqrtExact ((Knn.new 3 1 .Unfixed uniformQ 0).fit [] none) vZero
      = .error .panicked ∧
    PredictError.panicked ≠ PredictError.noNeighbors :=
  ⟨rfl, rfl, by decide⟩

/-- C3 amended: when neighbor retrieval returns the empty result set,
`predict` fails with the no-neighbors error only under the `Fixed` policy;
under the `Unfixed` (KNearest) policy it instead panics on the `unwrap` of
the farthest distance, so the no-neighbors error is not the only failure
mode (out-of-range stored ids or a mismatched weights vector — reachable
because `fit` never validates — also panic the target/weight lookup). -/
theorem predict_empty_retrieval_split (M : DistanceMetricQ) (sqrtFn : ℚ → ℚ)
    (knn : Knn) (x : Features) (h : knn.retrieve M x = []) :
    (knn.window = .Fixed → Knn.predict M sqrtFn knn x = .error .noNeighbors) ∧
    (knn.window = .Unfixed → Knn.predict M sqrtFn knn x = .error .panicked) := by
  constructor <;> intro hw <;>
    simp [Knn.predict, Knn.predictWithNeighbors, h, Knn.adjustDistances, hw, lookupNeighbors]

/-- C3 witness: the amended theorem applied to a concrete `Fixed`-policy
classifier whose retrieval is empty. -/
theorem predict_empty_retrieval_split_witness :
    (Knn.new 1 1 .Fixed uniformQ 0).retrieve Chebyshev vZero = [] ∧
    (Knn.new 1 1 .Fixed uniformQ 0).window = .Fixed ∧
    Knn.predict Chebyshev ratSqrtExact (Knn.new 1 1 .Fixed uniformQ 0) vZero
      = .error .noNeighbors :=
  ⟨rfl, rfl,
    (predict_empty_retrieval_split Chebyshev ratSqrtExact
      (Knn.new 1 1 .Fixed uniformQ 0) vZero rfl).1 rfl⟩

/-! ## Claim C4 -/

/-- C4 counterexample: under the `Fixed` policy with the Chebyshev metric and
radius 4, the sample `vNine` at true Chebyshev distance 9 from the query is
retrieved (the index is asked for native distance at most `radius² = 16`,
and 9 ≤ 16) and contributes to the vote, although its true distance exceeds
the radius; with the identity kernel the neighbor's normalized distance is
exposed as `sqrt 9 / 4 = 3/4`, not `9/4` = true distance / radius. -/
theorem fixed_window_chebyshev_cex :
    Chebyshev.dist vNine vZero = 9 ∧
    ¬ ((9 : ℚ) ≤ 4) ∧
    Knn.predictWithNeighbors Chebyshev ratSqrtExact
      ((Knn.new 0 4 .Fixed (fun u => u) 1).fit [⟨vNine, .benign⟩] none) vZero
      = .ok ([3/4], [.benign], [1]) ∧
    (3/4 : ℚ) ≠ 9/4 ∧
    Knn.predict Chebyshev ratSqrtExact
      ((Knn.new 0 4 .Fixed (fun u => u) 1).fit [⟨vNine, .benign⟩] none) vZero
      = .ok .benign := by
  have htree : ((Knn.new 0 4 .Fixed (fun u => u) 1).fit [⟨vNine, .benign⟩] none).kd_tree
      = [(vNine, 0)] := rfl
  refine ⟨chebyshev_vNine_vZero, by norm_num, ?_, by norm_num, ?_⟩
  · simp only [Knn.predictWithNeighbors, Knn.retrieve, htree]
    norm_num [KdTree.within, List.insertionSort, List.orderedInsert, chebyshev_vNine_vZero,
      ratSqrtExact_nine, Knn.adjustDistances, lookupNeighbors, Knn.fit, Knn.new]
  · simp only [Knn.predict, Knn.predictWithNeighbors, Knn.retrieve, htree]
    norm_num [KdTree.within, List.insertionSort, List.orderedInsert, chebyshev_vNine_vZero,
      ratSqrtExact_nine, Knn.adjustDistances, lookupNeighbors, Knn.fit, Knn.new,
      predictClass, List.enum, List.enumFrom, upsertScore, maxBySecond]

/-- C4 amended: under the `Fixed` policy, every retrieved neighbor's
metric-native distance is at most `radius²` (not `radius`), each retrieved
pair being the metric's native distance from a stored entry to the query;
and the normalized distance the kernel receives is `sqrt(native)/radius`.
Only for a metric whose native space is the squared true distance (such as
squared Euclidean) does this coincide with the claim's
`true distance ≤ radius` and `u = true distance / radius`. -/
theorem fixed_window_native_threshold (M : DistanceMetricQ) (sqrtFn : ℚ → ℚ)
    (knn : Knn) (x : Features) (hw : knn.window = .Fixed) :
    (∀ p ∈ knn.retrieve M x,
      p.1 ≤ knn.radius ^ 2 ∧ ∃ e ∈ knn.kd_tree, p = (M.dist e.1 x, e.2)) ∧
    knn.adjustDistances ((knn.retrieve M x).map (fun n => sqrtFn n.1))
      = .ok ((knn.retrieve M x).map (fun n => sqrtFn n.1 / knn.radius)) := by
  constructor
  · intro p hp
    rw [Knn.retrieve, hw] at hp
    have hp2 : p ∈ (knn.kd_tree.map (fun e => (M.dist e.1 x, e.2))).filter
        (fun p => p.1 ≤ knn.radius ^ 2) := (List.mem_insertionSort _).mp hp
    have hp3 := List.mem_filter.mp hp2
    refine ⟨by simpa using hp3.2, ?_⟩
    rcases List.mem_map.mp hp3.1 with ⟨e, he, hpe⟩
    exact ⟨e, he, hpe.symm⟩
  · rw [Knn.adjustDistances, hw, List.map_map]
    rfl

/-- C4 witness: the amended theorem applied to the concrete Chebyshev
scenario of the counterexample. -/
theorem fixed_window_native_threshold_witness :
    ((Knn.new 0 4 .Fixed (fun u => u) 1).fit [⟨vNine, .benign⟩] none).window = .Fixed ∧
    (∀ p ∈ ((Knn.new 0 4 .Fixed (fun u => u) 1).fit [⟨vNine, .benign⟩] none).retrieve
        Chebyshev vZero,
      p.1 ≤ ((Knn.new 0 4 .Fixed (fun u => u) 1).fit [⟨vNine, .benign⟩] none).radius ^ 2 ∧
      ∃ e ∈ ((Knn.new 0 4 .Fixed (fun u => u) 1).fit [⟨vNine, .benign⟩] none).kd_tree,
        p = (Chebyshev.dist e.1 vZero, e.2)) :=
  ⟨rfl,
    (fixed_window_native_threshold Chebyshev ratSqrtExact
      ((Knn.new 0 4 .Fixed (fun u => u) 1).fit [⟨vNine, .benign⟩] none) vZero rfl).1⟩

/-! ## Claim C5 -/

/-- C5 counterexample: fit two samples that coincide with the query under the
`Unfixed` policy; the retrieved true distances are `[0, 0]`, so the farthest
retrieved distance is exactly 0, and the source normalization — modelled
NaN-faithfully — divides by it unguarded: every normalized distance becomes
NaN (`0.0 / 0.0`), refuting that `predict` performs no unguarded
divide-by-zero and propagates no NaN. -/
theorem unfixed_zero_farthest_nan_cex :
    (KdTree.nearestN Chebyshev
      ((Knn.new 2 1 .Unfixed (fun u => u) 2).fit
        [⟨vZero, .benign⟩, ⟨vZero, .benign⟩] none).kd_tree
      vZero 2).map (fun n => ratSqrtExact n.1) = [0, 0] ∧
    adjustUnfixedFQ [.fin 0, .fin 0] = .ok [.nan, .nan] ∧
    FQ.nan ≠ FQ.fin 0 := by
  have htree : ((Knn.new 2 1 .Unfixed (fun u => u) 2).fit
      [⟨vZero, .benign⟩, ⟨vZero, .benign⟩] none).kd_tree = [(vZero, 0), (vZero, 1)] := rfl
  refine ⟨?_, ?_, by decide⟩
  · rw [htree]
    norm_num [KdTree.nearestN, List.insertionSort, List.orderedInsert, chebyshev_vZero_vZero,
      ratSqrtExact, natSqrtBelow]
  · norm_num [adjustUnfixedFQ, FQ.div, List.getLast?]

/-- C5 amended: under the `Unfixed` (KNearest) policy each neighbor's
normalized distance equals its true distance divided by the farthest
retrieved neighbor's distance (so u = 1 at the boundary of the retrieved
set), but the division is unguarded: when the farthest distance is exactly
0, every normalized distance is the IEEE-754 quotient `0.0 / 0.0 = NaN`. -/
theorem unfixed_normalization_divides_by_farthest (distances : List FQ)
    (farthest : FQ) (h : distances.getLast? = some farthest) :
    adjustUnfixedFQ distances
      = .ok (distances.map (fun distance => FQ.div distance farthest)) ∧
    FQ.div (.fin 0) (.fin 0) = .nan := by
  constructor
  · rw [adjustUnfixedFQ, h]
  · decide

/-- C5 witness: the amended theorem applied to a concrete two-neighbor
distance list with farthest distance 2. -/
theorem unfixed_normalization_divides_by_farthest_witness :
    ([FQ.fin 1, FQ.fin 2].getLast? = some (FQ.fin 2)) ∧
    adjustUnfixedFQ [FQ.fin 1, FQ.fin 2]
      = .ok [FQ.div (.fin 1) (.fin 2), FQ.div (.fin 2) (.fin 2)] :=
  ⟨rfl,
    (unfixed_normalization_divides_by_farthest [FQ.fin 1, FQ.fin 2] (FQ.fin 2) rfl).1⟩

/-! ## Claim C6 -/

/-- The lowess loop keeps an aborted accumulator aborted. -/
theorem lowessFold_error (step : Nat × Data → Except PredictError ℚ)
    (l : List (Nat × Data)) (e : PredictError) :
    l.foldl (lowessFold step) (.error e) = .error e := by
  induction l with
  | nil => rfl
  | cons y ys ih => exact ih

/-- A lowess step that succeeds pushes exactly `lowessStepWeight`. -/
theorem lowessStep_ok_weight (M : DistanceMetricQ) (sqrtFn : ℚ → ℚ)
    (neighbour_amount : Nat) (radius : ℚ) (window_type : WindowType)
    (kernel : ℚ → ℚ) (train_data : List Data) (p : Nat × Data) (w : ℚ)
    (h : lowessStep M sqrtFn neighbour_amount radius window_type kernel train_data p
      = .ok w) :
    w = lowessStepWeight M sqrtFn neighbour_amount radius window_type kernel
      train_data p := by
  rw [lowessStep] at h
  rw [lowessStepWeight]
  cases hp : lowessHeldOut M sqrtFn neighbour_amount radius window_type kernel
      train_data p with
  | ok prediction =>
    rw [hp] at h
    exact (Except.ok.inj h).symm
  | error e =>
    cases e with
    | noNeighbors =>
      rw [hp] at h
      exact (Except.ok.inj h).symm
    | panicked =>
      rw [hp] at h
      exact absurd h (by simp)

/-- A lowess step that fails fails by panicking, never by the recoverable
no-neighbors error, which it converts into the weight 0. -/
theorem lowessStep_error_panicked (M : DistanceMetricQ) (sqrtFn : ℚ → ℚ)
    (neighbour_amount : Nat) (radius : ℚ) (window_type : WindowType)
    (kernel : ℚ → ℚ) (train_data : List Data) (p : Nat × Data) (e : PredictError)
    (h : lowessStep M sqrtFn neighbour_amount radius window_type kernel train_data p
      = .error e) :
    e = .panicked := by
  rw [lowessStep] at h
  cases hp : lowessHeldOut M sqrtFn neighbour_amount radius window_type kernel
      train_data p with
  | ok prediction =>
    rw [hp] at h
    exact absurd h (by simp)
  | error e2 =>
    cases e2 with
    | noNeighbors =>
      rw [hp] at h
      exact absurd h (by simp)
    | panicked =>
      rw [hp] at h
      exact (Except.error.inj h).symm

/-- A lowess run that returns a weight list pushed exactly the per-sample
weights, in order. -/
theorem lowessFold_ok_eq_map (step : Nat × Data → Except PredictError ℚ)
    (g : Nat × Data → ℚ) (hfg : ∀ p w, step p = .ok w → w = g p) :
    ∀ (l : List (Nat × Data)) (acc ws : List ℚ),
    l.foldl (lowessFold step) (.ok acc) = .ok ws → ws = acc ++ l.map g := by
  intro l
  induction l with
  | nil =>
    intro acc ws h
    simpa using (Except.ok.inj h).symm
  | cons y ys ih =>
    intro acc ws h
    rw [List.foldl_cons] at h
    cases hy : step y with
    | ok w =>
      rw [show lowessFold step (.ok acc) y = .ok (acc ++ [w]) from by
        simp [lowessFold, hy]] at h
      rw [ih (acc ++ [w]) ws h, hfg y w hy]
      simp
    | error e =>
      rw [show lowessFold step (.ok acc) y = .error e from by
        simp [lowessFold, hy]] at h
      rw [lowessFold_error] at h
      exact absurd h (by simp)

/-- A lowess run that fails aborted on a panic of some step. -/
theorem lowessFold_error_panicked (step : Nat × Data → Except PredictError ℚ)
    (hstep : ∀ p e, step p = .error e → e = .panicked) :
    ∀ (l : List (Nat × Data)) (acc : List ℚ) (e : PredictError),
    l.foldl (lowessFold step) (.ok acc) = .error e → e = .panicked := by
  intro l
  induction l with
  | nil =>
    intro acc e h
    exact absurd h (by simp)
  | cons y ys ih =>
    intro acc e h
    rw [List.foldl_cons] at h
    cases hy : step y with
    | ok w =>
      rw [show lowessFold step (.ok acc) y = .ok (acc ++ [w]) from by
        simp [lowessFold, hy]] at h
      exact ih (acc ++ [w]) e h
    | error e2 =>
      rw [show lowessFold step (.ok acc) y = .error e2 from by
        simp [lowessFold, hy]] at h
      rw [lowessFold_error] at h
      rw [hstep y e2 hy] at h
      exact (Except.error.inj h).symm

/-- C6 counterexample: a one-sample dataset under the `Unfixed` (KNearest)
policy.  The single held-out fit is on the empty remainder, the held-out
`predict` panics on the `unwrap` of the farthest distance (src/knn.rs line
117), and — a panic not being a `Result` value the reweighter's `match`
could catch — the whole batch aborts with no weight vector at all, instead
of returning the single degraded weight `[0]` the claim requires. -/
theorem lowess_unfixed_single_sample_aborts_cex :
    lowess Chebyshev ratSqrtExact 2 1 .Unfixed uniformQ [⟨vZero, .benign⟩]
      = .error .panicked ∧
    ([⟨vZero, .benign⟩] : List Data).length = 1 ∧
    (Except.error PredictError.panicked : Except PredictError (List ℚ)) ≠ .ok [0] :=
  ⟨rfl, rfl, fun h => Except.noConfusion h⟩

/-- C6 amended: when the reweighter completes, it returns exactly one weight
per input sample in input order — sample i's weight coming from a transient
classifier with the same hyperparameters fitted on the dataset with sample i
removed under default (uniform, all-one) weights: `kernel 0` on an agreeing
held-out success, `kernel 1` on a disagreeing one, and `0` on the
recoverable no-neighbors failure, which degrades only that sample.  But a
panic inside a held-out `predict` (reachable under the KNearest policy)
aborts the entire batch, which then yields no weight vector at all; a panic
is the only way the batch can fail to complete. -/
theorem lowess_completes_or_aborts (M : DistanceMetricQ) (sqrtFn : ℚ → ℚ)
    (neighbour_amount : Nat) (radius : ℚ) (window_type : WindowType)
    (kernel : ℚ → ℚ) (train_data : List Data) :
    (∀ ws, lowess M sqrtFn neighbour_amount radius window_type kernel train_data
        = .ok ws →
      ws.length = train_data.length ∧
      ∀ i, ∀ h : i < train_data.length,
        ((Knn.new neighbour_amount radius window_type kernel
            (train_data.eraseIdx i).length).fit (train_data.eraseIdx i) none).weights
          = List.replicate (train_data.eraseIdx i).length 1 ∧
        ws.getD i 37
          = match Knn.predict M sqrtFn
                ((Knn.new neighbour_amount radius window_type kernel
                  (train_data.eraseIdx i).length).fit (train_data.eraseIdx i) none)
                (train_data.get ⟨i, h⟩).features with
            | .ok prediction =>
              if prediction = (train_data.get ⟨i, h⟩).label then kernel 0 else kernel 1
            | .error _ => 0) ∧
    (∀ e, lowess M sqrtFn neighbour_amount radius window_type kernel train_data
        = .error e → e = .panicked) := by
  constructor
  · intro ws hws
    rw [lowess] at hws
    have hmap := lowessFold_ok_eq_map
      (lowessStep M sqrtFn neighbour_amount radius window_type kernel train_data)
      (lowessStepWeight M sqrtFn neighbour_amount radius window_type kernel train_data)
      (fun p w h => lowessStep_ok_weight M sqrtFn neighbour_amount radius window_type
        kernel train_data p w h)
      train_data.enum [] ws hws
    rw [List.nil_append] at hmap
    constructor
    · rw [hmap]
      simp
    · intro i h
      refine ⟨rfl, ?_⟩
      rw [hmap]
      have hlen : i < (train_data.enum.map
          (lowessStepWeight M sqrtFn neighbour_amount radius window_type kernel
            train_data)).length := by
        simpa using h
      rw [List.getD_eq_getElem _ 37 hlen]
      simp only [List.getElem_map, List.getElem_enum]
      rfl
  · intro e he
    rw [lowess] at he
    exact lowessFold_error_panicked
      (lowessStep M sqrtFn neighbour_amount radius window_type kernel train_data)
      (fun p e2 h => lowessStep_error_panicked M sqrtFn neighbour_amount radius
        window_type kernel train_data p e2 h)
      train_data.enum [] e he

/-- C6 witness: the amended theorem applied to a concrete one-sample dataset
under the `Fixed` policy, where the held-out prediction fails recoverably
(no neighbors), the sample's weight degrades to 0, and the batch completes
with exactly one weight. -/
theorem lowess_completes_or_aborts_witness :
    lowess Chebyshev ratSqrtExact 1 1 .Fixed uniformQ [⟨vZero, .benign⟩] = .ok [0] ∧
    ([0] : List ℚ).length = ([⟨vZero, .benign⟩] : List Data).length ∧
    0 < ([⟨vZero, .benign⟩] : List Data).length ∧
    ([0] : List ℚ).getD 0 37 = 0 := by
  refine ⟨rfl, ?_, by decide, ?_⟩
  · exact ((lowess_completes_or_aborts Chebyshev ratSqrtExact 1 1 .Fixed uniformQ
      [⟨vZero, .benign⟩]).1 [0] rfl).1
  · have h := ((lowess_completes_or_aborts Chebyshev ratSqrtExact 1 1 .Fixed uniformQ
      [⟨vZero, .benign⟩]).1 [0] rfl).2 0 (by decide)
    rw [h.2]
    rfl

/-! ## Claim C7 -/

/-- C7: each kernel function equals its spec formula at every input —
uniform, triangular and epanechnikov pointwise equal the §4.2 table entries,
gaussian equals `(1/√(2π))·e^(−u²/2)` and is strictly positive everywhere —
and at the distinguished points: `uniform 0 = 0.5`, `triangular 0 = 1`,
`epanechnikov 0 = 0.75`, `gaussian 0 ≈ 0.39894` (bracketed between 0.3989
and 0.399), and the three compact kernels vanish at `u = 1`. -/
theorem kernels_match_spec_formulas :
    (∀ u : ℝ, uniform u = uniformSpec u ∧ triangular u = triangularSpec u ∧
      epanechnikov u = epanechnikovSpec u ∧ gaussian u = gaussianSpec u ∧
      0 < gaussian u) ∧
    uniform 0 = 0.5 ∧ triangular 0 = 1 ∧ epanechnikov 0 = 0.75 ∧
    (0.3989 : ℝ) < gaussian 0 ∧ gaussian 0 < 0.399 ∧
    uniform 1 = 0 ∧ triangular 1 = 0 ∧ epanechnikov 1 = 0 := by
  have hs_pos : 0 < Real.sqrt (2 * Real.pi) :=
    Real.sqrt_pos.mpr (by positivity)
  have hgauss0 : gaussian 0 = 1 / Real.sqrt (2 * Real.pi) := by
    rw [gaussian]
    norm_num
  have hub : Real.sqrt (2 * Real.pi) < 2.50687 := by
    refine (Real.sqrt_lt' (by norm_num)).mpr ?_
    nlinarith [Real.pi_lt_d6]
  have hlb : (2.50627 : ℝ) < Real.sqrt (2 * Real.pi) := by
    refine (Real.lt_sqrt (by norm_num)).mpr ?_
    nlinarith [Real.pi_gt_d6]
  refine ⟨fun u => ⟨rfl, rfl, ?_, rfl, ?_⟩, ?_, ?_, ?_, ?_, ?_, ?_, ?_, ?_⟩
  · rw [epanechnikov, epanechnikovSpec]
    split_ifs with h
    · ring
    · rfl
  · rw [gaussian]
    positivity
  · norm_num [uniform]
  · norm_num [triangular]
  · norm_num [epanechnikov]
  · rw [hgauss0, lt_div_iff₀ hs_pos]
    nlinarith [hub]
  · rw [hgauss0, div_lt_iff₀ hs_pos]
    nlinarith [hlb]
  · norm_num [uniform]
  · norm_num [triangular]
  · norm_num [epanechnikov]

/-! ## Claim C8 -/

/-- Length of the Chebyshev coordinate-difference list. -/
theorem chebyshev_len (a b : Features) :
    ((a.toList.zip b.toList).map (fun p => |p.1 - p.2|)).length = DIMENSIONS := by
  simp

/-- The Chebyshev coordinate-difference list holds, at position `j`, the
absolute difference of the vectors' coordinates `j`. -/
theorem chebyshev_getD (a b : Features) (j : Nat) (hj : j < DIMENSIONS) :
    ((a.toList.zip b.toList).map (fun p => |p.1 - p.2|)).getD j 0
      = |a.get ⟨j, hj⟩ - b.get ⟨j, hj⟩| := by
  rw [List.getD_eq_getElem _ 0 (by rw [chebyshev_len a b]; exact hj)]
  simp only [List.getElem_map, List.getElem_zip]
  rw [vector_get_eq_toList_get a ⟨j, hj⟩ (by simpa using hj),
    vector_get_eq_toList_get b ⟨j, hj⟩ (by simpa using hj)]
  simp [List.get_eq_getElem]

/-- C8: `Chebyshev.dist` is the maximum over all coordinates of the absolute
coordinate difference — it dominates every coordinate's absolute difference
and is attained at some coordinate — hence non-negative; it is symmetric and
zero exactly when the two vectors agree component-wise; and `dist1` is the
absolute difference of two scalars. -/
theorem chebyshev_dist_properties (a b : Features) :
    (∀ i : Fin DIMENSIONS, |a.get i - b.get i| ≤ Chebyshev.dist a b) ∧
    (∃ i : Fin DIMENSIONS, Chebyshev.dist a b = |a.get i - b.get i|) ∧
    0 ≤ Chebyshev.dist a b ∧
    Chebyshev.dist a b = Chebyshev.dist b a ∧
    (Chebyshev.dist a b = 0 ↔ a = b) ∧
    (∀ x y : ℚ, Chebyshev.dist1 x y = |x - y|) := by
  have hdab : Chebyshev.dist a b
      = ((a.toList.zip b.toList).map (fun p => |p.1 - p.2|)).foldl max 0 := rfl
  have hdba : Chebyshev.dist b a
      = ((b.toList.zip a.toList).map (fun p => |p.1 - p.2|)).foldl max 0 := rfl
  have hub : ∀ i : Fin DIMENSIONS, |a.get i - b.get i| ≤ Chebyshev.dist a b := by
    intro i
    have h := chebyshev_getD a b i.val i.isLt
    rw [List.getD_eq_getElem _ 0 (by rw [chebyshev_len a b]; exact i.isLt)] at h
    rw [hdab]
    have hmem : |a.get i - b.get i|
        ∈ (a.toList.zip b.toList).map (fun p => |p.1 - p.2|) := by
      rw [show (⟨i.val, i.isLt⟩ : Fin DIMENSIONS) = i from rfl] at h
      rw [← h]
      exact List.getElem_mem _
    exact le_foldl_max_of_mem hmem 0
  have hattain : ∃ i : Fin DIMENSIONS, Chebyshev.dist a b = |a.get i - b.get i| := by
    rcases foldl_max_eq_init_or_mem
        ((a.toList.zip b.toList).map (fun p => |p.1 - p.2|)) 0 with h0 | hm
    · have hz : (0 : Nat) < DIMENSIONS := by norm_num [DIMENSIONS]
      refine ⟨⟨0, hz⟩, ?_⟩
      have h1 := hub ⟨0, hz⟩
      have h2 : Chebyshev.dist a b = 0 := by rw [hdab, h0]
      rw [h2] at h1 ⊢
      exact (le_antisymm h1 (abs_nonneg _)).symm
    · rcases List.mem_iff_getElem.mp hm with ⟨j, hj, hjeq⟩
      have hjd : j < DIMENSIONS := by rw [chebyshev_len a b] at hj; exact hj
      refine ⟨⟨j, hjd⟩, ?_⟩
      have h := chebyshev_getD a b j hjd
      rw [List.getD_eq_getElem _ 0 hj] at h
      rw [hdab, ← hjeq, h]
  have hswap : (a.toList.zip b.toList).map (fun p => |p.1 - p.2|)
      = (b.toList.zip a.toList).map (fun p => |p.1 - p.2|) := by
    apply List.ext_getElem
    · simp
    · intro j h1 h2
      simp only [List.getElem_map, List.getElem_zip]
      exact abs_sub_comm _ _
  have hzero : Chebyshev.dist a b = 0 → a = b := by
    intro h0
    apply Mathlib.Vector.ext
    intro i
    have h1 := hub i
    rw [h0] at h1
    have h2 : |a.get i - b.get i| = 0 := le_antisymm h1 (abs_nonneg _)
    exact sub_eq_zero.mp (abs_eq_zero.mp h2)
  have hzero2 : a = b → Chebyshev.dist a b = 0 := by
    intro h
    subst h
    rcases hattain with ⟨i, hi⟩
    rw [hi]
    simp
  exact ⟨hub, hattain, by rw [hdab]; exact le_foldl_max_init _ 0,
    by rw [hdab, hdba, hswap], ⟨hzero, hzero2⟩, fun x y => rfl⟩

/-! ## Claim C9 -/

/-- C9: the feature dimension is fixed at the type level to exactly 30 —
`DIMENSIONS = 30`, every stored sample's feature vector has exactly 30
coordinates, and every query vector accepted by `predict` has exactly 30
coordinates — so all samples and queries of one classifier share one
dimension and a mismatched-dimension configuration failure cannot arise
through the core interface. -/
theorem dimensions_fixed_at_thirty :
    DIMENSIONS = 30 ∧
    (∀ d : Data, d.features.toList.length = 30) ∧
    (∀ x : Features, x.toList.length = 30) ∧
    (∀ knn : Knn, ∀ d ∈ knn.data, d.features.toList.length = 30) :=
  ⟨rfl, fun d => d.features.toList_length, fun x => x.toList_length,
    fun _ d _ => d.features.toList_length⟩

/-! ## Claim C10 -/

/-- C10: triangular, epanechnikov and gaussian are even functions, while
uniform is not: it returns 0.5 at every input strictly below 1 — including
every negative input — so `uniform (-2) = 0.5` while `uniform 2 = 0`,
`triangular (-2) = 0` and `epanechnikov (-2) = 0`. -/
theorem kernel_evenness :
    (∀ u : ℝ, triangular (-u) = triangular u ∧ epanechnikov (-u) = epanechnikov u ∧
      gaussian (-u) = gaussian u) ∧
    (∀ u : ℝ, u < 1 → uniform u = 0.5) ∧
    uniform (-2) = 0.5 ∧ uniform 2 = 0 ∧ triangular (-2) = 0 ∧ epanechnikov (-2) = 0 ∧
    ¬ (∀ u : ℝ, uniform (-u) = uniform u) := by
  refine ⟨fun u => ⟨?_, ?_, ?_⟩, fun u hu => ?_, ?_, ?_, ?_, ?_, ?_⟩
  · rw [triangular, triangular, abs_neg]
  · rw [epanechnikov, epanechnikov, abs_neg, neg_pow]
    norm_num
  · rw [gaussian, gaussian, neg_pow]
    norm_num
  · rw [uniform, if_pos hu]
  · norm_num [uniform]
  · norm_num [uniform]
  · norm_num [triangular]
  · norm_num [epanechnikov]
  · intro h
    have h2 := h 2
    norm_num [uniform] at h2

/-- C10 witness: the evenness theorem's uniform clause applied at the
concrete negative input -5. -/
theorem kernel_evenness_witness :
    (-5 : ℝ) < 1 ∧ uniform (-5) = 0.5 :=
  ⟨by norm_num, kernel_evenness.2.1 (-5) (by norm_num)⟩
